import Mathlib

/-
Shallow embedding of `src/z3/s3_client.py` (repository buzzni/z3).

The Python module is a thin client over an S3-style object store.  We model:
  * Python `pathlib.PurePosixPath` values as a flag (absolute?) plus the list
    of path components (Python drops empty components and ".");
  * the local filesystem as a finite association list from paths to byte
    contents, plus the list of directories that exist;
  * the storage backend as a record of (pure) handlers, one per SDK call the
    module performs, each returning a result or an error; every operation
    additionally returns the list of backend calls it performed, in order,
    so that "the backend stub records zero invocations" and similar
    statements are expressible.
Python exceptions become an `Except Err` result: `ValueError` for argument
validation and for `Path.relative_to` failures, storage-backend failures, and
local `OSError`s (e.g. `os.makedirs("")` raising `FileNotFoundError`).
-/

/-- Errors surfaced by the client operations. -/
inductive Err where
  | valueError (msg : String)
  | storage (msg : String)
  | osError (msg : String)
  deriving Repr, DecidableEq

deriving instance DecidableEq for Except

/-- Python `str.startswith`, as a structurally recursive function on the
character list (so that concrete instances evaluate by `decide`). -/
def strStartsWith (s pre : String) : Bool :=
  pre.data.isPrefixOf s.data

/-- Python `str.endswith`, as a structurally recursive function on the
character list. -/
def strEndsWith (s suf : String) : Bool :=
  suf.data.isSuffixOf s.data

/-- Split a character list at every "/" (Python `str.split("/")`:
empty pieces are kept). -/
def splitSlashAux : List Char → List Char → List (List Char)
  | [], acc => [acc.reverse]
  | c :: cs, acc =>
    if c = '/' then acc.reverse :: splitSlashAux cs []
    else splitSlashAux cs (c :: acc)

/-- Python `s.split("/")`. -/
def splitSlash (s : String) : List String :=
  (splitSlashAux s.data []).map String.mk

/-- A Python `pathlib.PurePosixPath`: whether it is absolute, and its
components (`.parts` without the leading root). -/
structure PyPath where
  isAbs : Bool
  segs : List String
  deriving Repr, DecidableEq

/-- Parse a string into a `PyPath` the way `pathlib.Path(s)` does for POSIX
strings: absolute iff the string starts with "/", components are the
"/"-separated pieces with empty pieces and "." dropped. -/
def pyPath (s : String) : PyPath :=
  ⟨strStartsWith s "/", (splitSlash s).filter (fun t => t != "" && t != ".")⟩

/-- `os.path.dirname` on the string form of a path: drop the last component. -/
def pyDirname (p : PyPath) : PyPath :=
  ⟨p.isAbs, p.segs.dropLast⟩

/-- Python `Path.__truediv__`: joining an absolute right operand replaces the
left one; otherwise concatenate components. -/
def pyJoin (p q : PyPath) : PyPath :=
  if q.isAbs then q else ⟨p.isAbs, p.segs ++ q.segs⟩

/-- `str(path)` for a `PyPath` (POSIX form; the empty relative path prints
as "."). -/
def pyStr (p : PyPath) : String :=
  if p.segs.isEmpty then (if p.isAbs then "/" else ".")
  else (if p.isAbs then "/" ++ String.intercalate "/" p.segs
        else String.intercalate "/" p.segs)

/-- Python `Path.relative_to`: succeeds iff both paths agree on absoluteness
and the components of `q` are a leading run of the components of `p`; the
result is the relative path of the remaining components.  Returns `none`
where Python raises `ValueError`. -/
def PyPath.relative_to (p q : PyPath) : Option PyPath :=
  if (p.isAbs == q.isAbs) && q.segs.isPrefixOf p.segs then
    some ⟨false, p.segs.drop q.segs.length⟩
  else none

/-- The local filesystem: files (path, byte content) and existing
directories. -/
structure FS where
  files : List (PyPath × List Nat)
  dirs : List PyPath
  deriving Repr, DecidableEq

/-- Content of the file at `p`, if one exists (first binding wins). -/
def fsRead : List (PyPath × List Nat) → PyPath → Option (List Nat)
  | [], _ => none
  | (q, d) :: rest, p => if q = p then some d else fsRead rest p

/-- Remove every binding for path `p`. -/
def removeFile : List (PyPath × List Nat) → PyPath → List (PyPath × List Nat)
  | [], _ => []
  | (q, d) :: rest, p =>
    if q = p then removeFile rest p else (q, d) :: removeFile rest p

/-- `open(path, "wb")` followed by writing `d`: create or overwrite. -/
def writeFile (fs : FS) (p : PyPath) (d : List Nat) : FS :=
  ⟨(p, d) :: removeFile fs.files p, fs.dirs⟩

/-- The directory `d` and all its ancestors (what `os.makedirs` creates). -/
def ancestors (d : PyPath) : List PyPath :=
  (List.range d.segs.length).map (fun i => ⟨d.isAbs, d.segs.take (i + 1)⟩)

/-- The ancestor walk of `os.makedirs(..., exist_ok=True)`, shallowest
component first (`done` is the chain already processed, `todo` the remaining
components).  An existing directory is fine (`exist_ok` suppresses only
`FileExistsError`-for-a-directory); a regular file at the final component
raises `FileExistsError`, a regular file at an inner component raises
`NotADirectoryError` for the next `mkdir` — in both cases the directories
already created persist.  Missing directories are created one by one. -/
def makedirsAux (isAbs : Bool) : FS → List String → List String →
    Except Err Unit × FS
  | fs, _, [] => (.ok (), fs)
  | fs, done, s :: todo =>
    if (fsRead fs.files ⟨isAbs, done ++ [s]⟩).isSome then
      (.error (.osError
        (if todo.isEmpty then "File exists" else "Not a directory")), fs)
    else
      makedirsAux isAbs
        ⟨fs.files,
          if (⟨isAbs, done ++ [s]⟩ : PyPath) ∈ fs.dirs then fs.dirs
          else (⟨isAbs, done ++ [s]⟩ : PyPath) :: fs.dirs⟩
        (done ++ [s]) todo

/-- `os.makedirs(d, exist_ok=True)`.  Python raises `FileNotFoundError` when
`d` is the empty relative path (in particular `os.makedirs("")`, which is
what `os.path.dirname` yields for a bare filename); otherwise the ancestor
chain is walked and created, failing where a regular file is in the way. -/
def osMakedirs (fs : FS) (d : PyPath) : Except Err Unit × FS :=
  if !d.isAbs && d.segs.isEmpty then
    (.error (.osError "No such file or directory"), fs)
  else
    makedirsAux d.isAbs fs [] d.segs

/-- `open(path, "wb")` followed by writing `d`: raises `IsADirectoryError`
when a directory occupies `path`; otherwise creates or truncates the file
and writes `d` (the parent directory has been ensured by `os.makedirs`
at the call sites). -/
def openWrite (fs : FS) (p : PyPath) (d : List Nat) : Except Err FS :=
  if p ∈ fs.dirs then .error (.osError "Is a directory")
  else .ok (writeFile fs p d)

/-- The empty local filesystem. -/
def fs0 : FS := ⟨[], []⟩

/-- One backend (boto3 S3 client) call, as recorded by a stub. -/
inductive BackendCall where
  | listPages (bucket pfx : String)
  | copy (srcBucket srcKey destBucket destKey : String)
  | delete (bucket key : String)
  | get (bucket key : String)
  | put (bucket key : String) (body : List Nat)
  deriving Repr, DecidableEq

/-- The storage backend: a pure handler per SDK call used by the module.
`listPages` models the `list_objects_v2` paginator: the full sequence of
pages, each page being its list of keys (`Contents[*].Key`; a page without
`Contents` is the empty list).  `get` returns the object body as the chunk
sequence of `Body.iter_chunks()`. -/
structure Backend where
  listPages : String → String → Except Err (List (List String))
  copy : String → String → String → String → Except Err Unit
  delete : String → String → Except Err Unit
  get : String → String → Except Err (List (List Nat))
  put : String → String → List Nat → Except Err Unit

/-- `list_object_keys(bucket_name, prefix, exclude_folders=True)`: validate
the prefix, walk every page of the paginator extending the accumulator, then
optionally drop keys ending in "/". -/
def list_object_keys (b : Backend) (bucket_name pfx : String)
    (exclude_folders : Bool) : Except Err (List String) × List BackendCall :=
  if strStartsWith pfx "/" then
    (.error (.valueError "prefix must not start with /"), [])
  else
    match b.listPages bucket_name pfx with
    | .error e => (.error e, [.listPages bucket_name pfx])
    | .ok pages =>
      let object_keys := pages.foldl (fun acc page => acc ++ page) []
      let object_keys :=
        if exclude_folders then object_keys.filter (fun k => !strEndsWith k "/")
        else object_keys
      (.ok object_keys, [.listPages bucket_name pfx])

/-- `copy_object`: validate both keys, then one server-side copy call. -/
def copy_object (b : Backend)
    (src_bucket_name src_object_key dest_bucket_name dest_object_key : String) :
    Except Err Unit × List BackendCall :=
  if strStartsWith src_object_key "/" || strStartsWith dest_object_key "/" then
    (.error (.valueError "object_key must not start with /"), [])
  else
    match b.copy src_bucket_name src_object_key dest_bucket_name dest_object_key with
    | .error e =>
      (.error e,
        [.copy src_bucket_name src_object_key dest_bucket_name dest_object_key])
    | .ok _ =>
      (.ok (),
        [.copy src_bucket_name src_object_key dest_bucket_name dest_object_key])

/-- `delete_object`: validate the key, then one delete call. -/
def delete_object (b : Backend) (bucket_name object_key : String) :
    Except Err Unit × List BackendCall :=
  if strStartsWith object_key "/" then
    (.error (.valueError "object_key must not start with /"), [])
  else
    match b.delete bucket_name object_key with
    | .error e => (.error e, [.delete bucket_name object_key])
    | .ok _ => (.ok (), [.delete bucket_name object_key])

/-- `move_object`: validate, then `copy_object` followed by `delete_object`
of the source; an error at either step propagates and stops the sequence. -/
def move_object (b : Backend)
    (src_bucket_name src_object_key dest_bucket_name dest_object_key : String) :
    Except Err Unit × List BackendCall :=
  if strStartsWith src_object_key "/" || strStartsWith dest_object_key "/" then
    (.error (.valueError "object_key must not start with /"), [])
  else
    match copy_object b src_bucket_name src_object_key dest_bucket_name
        dest_object_key with
    | (.error e, t) => (.error e, t)
    | (.ok _, t) =>
      match delete_object b src_bucket_name src_object_key with
      | (r, t2) => (r, t ++ t2)

/-- `download_object`: validate the key, `get_object`, then
`os.makedirs(os.path.dirname(local_path), exist_ok=True)`, then write the
body chunks to `local_path`.  The filesystem is only touched after a
successful get. -/
def download_object (b : Backend) (fs : FS) (bucket_name object_key : String)
    (local_path : PyPath) : Except Err Unit × List BackendCall × FS :=
  if strStartsWith object_key "/" then
    (.error (.valueError "object_key must not start with /"), [], fs)
  else
    match b.get bucket_name object_key with
    | .error e => (.error e, [.get bucket_name object_key], fs)
    | .ok chunks =>
      match osMakedirs fs (pyDirname local_path) with
      | (.error e, fs1) => (.error e, [.get bucket_name object_key], fs1)
      | (.ok _, fs1) =>
        match openWrite fs1 local_path chunks.flatten with
        | .error e => (.error e, [.get bucket_name object_key], fs1)
        | .ok fs2 => (.ok (), [.get bucket_name object_key], fs2)

/-- The per-key loop of `download_folder`: skip keys ending in "/", compute
`Path(object_key).relative_to(prefix)` (a `ValueError` stops the loop),
download to `local_path / relative_object_key`, stop at the first error. -/
def dfLoop (b : Backend) (bucket_name pfx : String) (local_path : PyPath) :
    FS → List String → Except Err Unit × List BackendCall × FS
  | fs, [] => (.ok (), [], fs)
  | fs, k :: ks =>
    if strEndsWith k "/" then dfLoop b bucket_name pfx local_path fs ks
    else
      match (pyPath k).relative_to (pyPath pfx) with
      | none =>
        (.error (.valueError (k ++ " is not in the subpath of " ++ pfx)), [], fs)
      | some rel =>
        match download_object b fs bucket_name k (pyJoin local_path rel) with
        | (.error e, t, fs2) => (.error e, t, fs2)
        | (.ok _, t, fs2) =>
          let res := dfLoop b bucket_name pfx local_path fs2 ks
          (res.1, t ++ res.2.1, res.2.2)

/-- `download_folder`: validate the prefix, list the keys under it (with the
default `exclude_folders=True`), then run the download loop. -/
def download_folder (b : Backend) (fs : FS) (bucket_name pfx : String)
    (local_path : PyPath) : Except Err Unit × List BackendCall × FS :=
  if strStartsWith pfx "/" then
    (.error (.valueError "prefix must not start with /"), [], fs)
  else
    match list_object_keys b bucket_name pfx true with
    | (.error e, t) => (.error e, t, fs)
    | (.ok object_keys, t) =>
      let res := dfLoop b bucket_name pfx local_path fs object_keys
      (res.1, t ++ res.2.1, res.2.2)

/-- `put_object`: validate the key, read the whole local file (`open` of a
missing file raises before any backend call), then one put call with the
file content as body. -/
def put_object (b : Backend) (fs : FS) (bucket_name object_key : String)
    (local_path : PyPath) : Except Err Unit × List BackendCall :=
  if strStartsWith object_key "/" then
    (.error (.valueError "object_key must not start with /"), [])
  else
    match fsRead fs.files local_path with
    | none => (.error (.osError "No such file or directory"), [])
    | some file_data =>
      match b.put bucket_name object_key file_data with
      | .error e => (.error e, [.put bucket_name object_key file_data])
      | .ok _ => (.ok (), [.put bucket_name object_key file_data])

/-- `local_path.rglob("*")` restricted by `is_file()`: the paths of the
regular files lying strictly under `local_path`. -/
def rglobFiles (fs : FS) (local_path : PyPath) : List PyPath :=
  (fs.files.map Prod.fst).filter
    (fun p => (p.isAbs == local_path.isAbs) && local_path.segs.isPrefixOf p.segs
      && decide (local_path.segs.length < p.segs.length))

/-- The per-file loop of `put_folder`: for each file, its path relative to
`local_path`, joined onto the prefix via `str(Path(prefix) / relative_path)`,
is the destination key; stop at the first error. -/
def pfLoop (b : Backend) (fs : FS) (bucket_name pfx : String)
    (local_path : PyPath) : List PyPath → Except Err Unit × List BackendCall
  | [] => (.ok (), [])
  | p :: rest =>
    match p.relative_to local_path with
    | none => (.error (.valueError "path is not relative to the folder root"), [])
    | some rel =>
      match put_object b fs bucket_name (pyStr (pyJoin (pyPath pfx) rel)) p with
      | (.error e, t) => (.error e, t)
      | (.ok _, t) =>
        let res := pfLoop b fs bucket_name pfx local_path rest
        (res.1, t ++ res.2)

/-- `put_folder`: validate the prefix, then upload every regular file under
`local_path`. -/
def put_folder (b : Backend) (fs : FS) (bucket_name pfx : String)
    (local_path : PyPath) : Except Err Unit × List BackendCall :=
  if strStartsWith pfx "/" then
    (.error (.valueError "prefix must not start with /"), [])
  else pfLoop b fs bucket_name pfx local_path (rglobFiles fs local_path)

/-- Modelled from the spec: `z3.asyncable.run_in_executor` (module
`z3/asyncable.py`, which is referenced by `src/z3/s3_client.py` but is not
part of the given sources).  Per the spec, asynchronous variants are
"synchronous operations executed on a background worker (thread/task pool)
and awaited, preserving identical semantics and error behavior": the awaited
outcome of scheduling `f` is exactly the synchronous call's result or
error. -/
def run_in_executor {α : Type} (f : Unit → α) : α := f ()

/-- `alist_object_keys`: `list_object_keys` on the executor. -/
def alist_object_keys (b : Backend) (bucket_name pfx : String)
    (exclude_folders : Bool) : Except Err (List String) × List BackendCall :=
  run_in_executor (fun _ => list_object_keys b bucket_name pfx exclude_folders)

/-- `acopy_object`: `copy_object` on the executor. -/
def acopy_object (b : Backend)
    (src_bucket_name src_object_key dest_bucket_name dest_object_key : String) :
    Except Err Unit × List BackendCall :=
  run_in_executor (fun _ =>
    copy_object b src_bucket_name src_object_key dest_bucket_name dest_object_key)

/-- `adelete_object`: `delete_object` on the executor. -/
def adelete_object (b : Backend) (bucket_name object_key : String) :
    Except Err Unit × List BackendCall :=
  run_in_executor (fun _ => delete_object b bucket_name object_key)

/-- `amove_object`: `move_object` on the executor. -/
def amove_object (b : Backend)
    (src_bucket_name src_object_key dest_bucket_name dest_object_key : String) :
    Except Err Unit × List BackendCall :=
  run_in_executor (fun _ =>
    move_object b src_bucket_name src_object_key dest_bucket_name dest_object_key)

/-- `adownload_object`: `download_object` on the executor. -/
def adownload_object (b : Backend) (fs : FS) (bucket_name object_key : String)
    (local_path : PyPath) : Except Err Unit × List BackendCall × FS :=
  run_in_executor (fun _ => download_object b fs bucket_name object_key local_path)

/-- `adownload_folder`: `download_folder` on the executor. -/
def adownload_folder (b : Backend) (fs : FS) (bucket_name pfx : String)
    (local_path : PyPath) : Except Err Unit × List BackendCall × FS :=
  run_in_executor (fun _ => download_folder b fs bucket_name pfx local_path)

/-- `aput_object`: `put_object` on the executor. -/
def aput_object (b : Backend) (fs : FS) (bucket_name object_key : String)
    (local_path : PyPath) : Except Err Unit × List BackendCall :=
  run_in_executor (fun _ => put_object b fs bucket_name object_key local_path)

/-- `aput_folder`: `put_folder` on the executor. -/
def aput_folder (b : Backend) (fs : FS) (bucket_name pfx : String)
    (local_path : PyPath) : Except Err Unit × List BackendCall :=
  run_in_executor (fun _ => put_folder b fs bucket_name pfx local_path)

/-- Recognise a recorded copy call. -/
def isCopyCall : BackendCall → Bool
  | .copy _ _ _ _ => true
  | _ => false

/-- Recognise a recorded delete call. -/
def isDeleteCall : BackendCall → Bool
  | .delete _ _ => true
  | _ => false

/-- Destination path `local_path / (key relative to the prefix)` used by
`download_folder` for a listed key. -/
def destOf (pfx : String) (local_path : PyPath) (k : String) : PyPath :=
  pyJoin local_path ⟨false, (pyPath k).segs.drop (pyPath pfx).segs.length⟩

/-- Destination key `str(Path(prefix) / path.relative_to(local_path))` used
by `put_folder` for a local file path. -/
def s3KeyOf (pfx : String) (local_path : PyPath) (p : PyPath) : String :=
  pyStr (pyJoin (pyPath pfx) ⟨false, p.segs.drop local_path.segs.length⟩)

/-- The destinations of two keys do not nest: neither destination path is a
component-prefix of the other (in particular they differ).  When this fails,
`os.makedirs`/`open` collide with a file or directory left by the other
key. -/
abbrev destsDisjoint (pfx : String) (local_path : PyPath) (k1 k2 : String) : Prop :=
  (destOf pfx local_path k1).segs.isPrefixOf
    (destOf pfx local_path k2).segs = false ∧
  (destOf pfx local_path k2).segs.isPrefixOf
    (destOf pfx local_path k1).segs = false

/-- A backend stub on which every call succeeds. -/
def stubOk : Backend :=
  ⟨fun _ _ => .ok [["data/a.txt", "data/sub/b.txt", "data/"]],
   fun _ _ _ _ => .ok (),
   fun _ _ => .ok (),
   fun _ _ => .ok [[104, 105]],
   fun _ _ _ => .ok ()⟩

/-- A backend stub whose copy succeeds and whose delete fails. -/
def stubDeleteFails : Backend :=
  ⟨fun _ _ => .ok [], fun _ _ _ _ => .ok (),
   fun _ _ => .error (.storage "delete failed"),
   fun _ _ => .ok [], fun _ _ _ => .ok ()⟩

/-- A backend stub returning the listing in three pages. -/
def stubThreePages : Backend :=
  ⟨fun _ _ => .ok [["a", "b"], ["c", "d"], ["e", "f"]], fun _ _ _ _ => .ok (),
   fun _ _ => .ok (), fun _ _ => .ok [], fun _ _ _ => .ok ()⟩

/-- A backend stub whose listing mixes plain keys and folder markers. -/
def stubMarkers : Backend :=
  ⟨fun _ _ => .ok [["data/a.txt", "data/", "data/sub/"]], fun _ _ _ _ => .ok (),
   fun _ _ => .ok (), fun _ _ => .ok [], fun _ _ _ => .ok ()⟩

/-- A backend stub whose get fails. -/
def stubGetFails : Backend :=
  ⟨fun _ _ => .ok [], fun _ _ _ _ => .ok (), fun _ _ => .ok (),
   fun _ _ => .error (.storage "get failed"), fun _ _ _ => .ok ()⟩

/-- A backend stub listing a key that string-extends the prefix "data"
without extending it component-wise. -/
def stubBadKey : Backend :=
  ⟨fun _ _ => .ok [["datax/a.txt"]], fun _ _ _ _ => .ok (), fun _ _ => .ok (),
   fun _ _ => .ok [[104]], fun _ _ _ => .ok ()⟩

/-- Folding list-append over pages starting from an accumulator is the
accumulator followed by the concatenation of all pages, in page order. -/
theorem foldl_append_eq_flatten {α : Type} (pages : List (List α)) (acc : List α) :
    pages.foldl (fun a page => a ++ page) acc = acc ++ pages.flatten := by
  induction pages generalizing acc with
  | nil => simp
  | cons p ps ih => simp [ih]

/-- Claim C1: for every prefix or object key that starts with "/", every
operation that accepts it (list_object_keys, copy_object, delete_object,
move_object, download_object, download_folder, put_object, put_folder)
raises InvalidArgument (Python `ValueError`) before any backend call is
attempted: the recorded backend-call trace is empty (and the local
filesystem is untouched). -/
theorem c1_leading_slash_rejected_without_backend_calls (b : Backend) (fs : FS) :
    (∀ bucket_name pfx ex, strStartsWith pfx "/" = true →
      list_object_keys b bucket_name pfx ex =
        (.error (.valueError "prefix must not start with /"), [])) ∧
    (∀ sb sk db dk, strStartsWith sk "/" = true ∨ strStartsWith dk "/" = true →
      copy_object b sb sk db dk =
        (.error (.valueError "object_key must not start with /"), [])) ∧
    (∀ bucket_name object_key, strStartsWith object_key "/" = true →
      delete_object b bucket_name object_key =
        (.error (.valueError "object_key must not start with /"), [])) ∧
    (∀ sb sk db dk, strStartsWith sk "/" = true ∨ strStartsWith dk "/" = true →
      move_object b sb sk db dk =
        (.error (.valueError "object_key must not start with /"), [])) ∧
    (∀ bucket_name object_key local_path, strStartsWith object_key "/" = true →
      download_object b fs bucket_name object_key local_path =
        (.error (.valueError "object_key must not start with /"), [], fs)) ∧
    (∀ bucket_name pfx local_path, strStartsWith pfx "/" = true →
      download_folder b fs bucket_name pfx local_path =
        (.error (.valueError "prefix must not start with /"), [], fs)) ∧
    (∀ bucket_name object_key local_path, strStartsWith object_key "/" = true →
      put_object b fs bucket_name object_key local_path =
        (.error (.valueError "object_key must not start with /"), [])) ∧
    (∀ bucket_name pfx local_path, strStartsWith pfx "/" = true →
      put_folder b fs bucket_name pfx local_path =
        (.error (.valueError "prefix must not start with /"), [])) := by
  refine ⟨?_, ?_, ?_, ?_, ?_, ?_, ?_, ?_⟩
  · intro bucket_name pfx ex h
    simp [list_object_keys, h]
  · intro sb sk db dk h
    rcases h with h | h <;> simp [copy_object, h]
  · intro bucket_name object_key h
    simp [delete_object, h]
  · intro sb sk db dk h
    rcases h with h | h <;> simp [move_object, h]
  · intro bucket_name object_key local_path h
    simp [download_object, h]
  · intro bucket_name pfx local_path h
    simp [download_folder, h]
  · intro bucket_name object_key local_path h
    simp [put_object, h]
  · intro bucket_name pfx local_path h
    simp [put_folder, h]

/-- Witness for C1: each operation at a concrete leading-slash argument. -/
theorem c1_witness :
    list_object_keys stubOk "bkt" "/p" true =
      (.error (.valueError "prefix must not start with /"), []) ∧
    copy_object stubOk "a" "/k" "b" "k2" =
      (.error (.valueError "object_key must not start with /"), []) ∧
    delete_object stubOk "bkt" "/k" =
      (.error (.valueError "object_key must not start with /"), []) ∧
    move_object stubOk "a" "/k" "b" "k2" =
      (.error (.valueError "object_key must not start with /"), []) ∧
    download_object stubOk fs0 "bkt" "/k" ⟨true, ["x"]⟩ =
      (.error (.valueError "object_key must not start with /"), [], fs0) ∧
    download_folder stubOk fs0 "bkt" "/p" ⟨true, ["x"]⟩ =
      (.error (.valueError "prefix must not start with /"), [], fs0) ∧
    put_object stubOk fs0 "bkt" "/k" ⟨true, ["x"]⟩ =
      (.error (.valueError "object_key must not start with /"), []) ∧
    put_folder stubOk fs0 "bkt" "/p" ⟨true, ["x"]⟩ =
      (.error (.valueError "prefix must not start with /"), []) := by
  obtain ⟨h1, h2, h3, h4, h5, h6, h7, h8⟩ :=
    c1_leading_slash_rejected_without_backend_calls stubOk fs0
  exact ⟨h1 "bkt" "/p" true (by decide), h2 "a" "/k" "b" "k2" (Or.inl (by decide)),
    h3 "bkt" "/k" (by decide), h4 "a" "/k" "b" "k2" (Or.inl (by decide)),
    h5 "bkt" "/k" ⟨true, ["x"]⟩ (by decide), h6 "bkt" "/p" ⟨true, ["x"]⟩ (by decide),
    h7 "bkt" "/k" ⟨true, ["x"]⟩ (by decide), h8 "bkt" "/p" ⟨true, ["x"]⟩ (by decide)⟩

/-- Claim C2: against a backend returning its listing in any number of
pages, `list_object_keys` returns the union of all pages in page order
(here with `exclude_folders = false`, so the enumeration itself is visible),
issuing the single paginated listing request; it does not stop at the first
page. -/
theorem c2_list_object_keys_paginates_all_pages (b : Backend)
    (bucket_name pfx : String) (pages : List (List String))
    (hpfx : strStartsWith pfx "/" = false)
    (hlist : b.listPages bucket_name pfx = .ok pages) :
    (list_object_keys b bucket_name pfx false).1 = .ok pages.flatten ∧
    (list_object_keys b bucket_name pfx false).2 = [.listPages bucket_name pfx] := by
  constructor <;> simp [list_object_keys, hpfx, hlist, foldl_append_eq_flatten]

/-- Witness for C2: three pages of keys are all returned, in page order. -/
theorem c2_witness :
    (list_object_keys stubThreePages "bkt" "p" false).1 =
      .ok ["a", "b", "c", "d", "e", "f"] ∧
    (list_object_keys stubThreePages "bkt" "p" false).2 =
      [.listPages "bkt" "p"] :=
  c2_list_object_keys_paginates_all_pages stubThreePages "bkt" "p"
    [["a", "b"], ["c", "d"], ["e", "f"]] (by decide) rfl

/-- Claim C8: on the same backend data, `exclude_folders = true` returns
exactly the enumerated keys with every key ending in "/" removed (the filter
is applied to the full enumeration), while `exclude_folders = false` retains
them all. -/
theorem c8_exclude_folders_filters_markers (b : Backend)
    (bucket_name pfx : String) (pages : List (List String))
    (hpfx : strStartsWith pfx "/" = false)
    (hlist : b.listPages bucket_name pfx = .ok pages) :
    (list_object_keys b bucket_name pfx true).1 =
      .ok (pages.flatten.filter (fun k => !strEndsWith k "/")) ∧
    (list_object_keys b bucket_name pfx false).1 = .ok pages.flatten := by
  constructor <;> simp [list_object_keys, hpfx, hlist, foldl_append_eq_flatten]

/-- Witness for C8: folder markers dropped with the flag on, kept with it
off. -/
theorem c8_witness :
    (list_object_keys stubMarkers "bkt" "data" true).1 = .ok ["data/a.txt"] ∧
    (list_object_keys stubMarkers "bkt" "data" false).1 =
      .ok ["data/a.txt", "data/", "data/sub/"] :=
  c8_exclude_folders_filters_markers stubMarkers "bkt" "data"
    [["data/a.txt", "data/", "data/sub/"]] (by decide) rfl

/-- Claim C3: `move_object` is `copy_object` then `delete_object` of the
source with no rollback: when the backend copy succeeds and the delete
fails, the delete error propagates to the caller, and the recorded trace
holds exactly one copy call and one delete call. -/
theorem c3_move_is_copy_then_delete_no_rollback (b : Backend)
    (sb sk db dk : String) (e : Err)
    (hsk : strStartsWith sk "/" = false) (hdk : strStartsWith dk "/" = false)
    (hcopy : b.copy sb sk db dk = .ok ())
    (hdel : b.delete sb sk = .error e) :
    (move_object b sb sk db dk).1 = .error e ∧
    ((move_object b sb sk db dk).2.filter isCopyCall).length = 1 ∧
    ((move_object b sb sk db dk).2.filter isDeleteCall).length = 1 := by
  refine ⟨?_, ?_, ?_⟩ <;>
    simp [move_object, copy_object, delete_object, hsk, hdk, hcopy, hdel,
      isCopyCall, isDeleteCall]

/-- Witness for C3: delete fails after a successful copy on a stub. -/
theorem c3_witness :
    (move_object stubDeleteFails "sb" "sk" "db" "dk").1 =
      .error (.storage "delete failed") ∧
    ((move_object stubDeleteFails "sb" "sk" "db" "dk").2.filter
        isCopyCall).length = 1 ∧
    ((move_object stubDeleteFails "sb" "sk" "db" "dk").2.filter
        isDeleteCall).length = 1 :=
  c3_move_is_copy_then_delete_no_rollback stubDeleteFails "sb" "sk" "db" "dk"
    (.storage "delete failed") (by decide) (by decide) rfl rfl

/-- Claim C9: every asynchronous variant produces the same result, trace and
error as the corresponding synchronous operation on the same arguments. -/
theorem c9_async_variants_equal_sync :
    (∀ b bucket_name pfx ex,
      alist_object_keys b bucket_name pfx ex =
        list_object_keys b bucket_name pfx ex) ∧
    (∀ b sb sk db dk, acopy_object b sb sk db dk = copy_object b sb sk db dk) ∧
    (∀ b bucket_name object_key,
      adelete_object b bucket_name object_key =
        delete_object b bucket_name object_key) ∧
    (∀ b sb sk db dk, amove_object b sb sk db dk = move_object b sb sk db dk) ∧
    (∀ b fs bucket_name object_key local_path,
      adownload_object b fs bucket_name object_key local_path =
        download_object b fs bucket_name object_key local_path) ∧
    (∀ b fs bucket_name pfx local_path,
      adownload_folder b fs bucket_name pfx local_path =
        download_folder b fs bucket_name pfx local_path) ∧
    (∀ b fs bucket_name object_key local_path,
      aput_object b fs bucket_name object_key local_path =
        put_object b fs bucket_name object_key local_path) ∧
    (∀ b fs bucket_name pfx local_path,
      aput_folder b fs bucket_name pfx local_path =
        put_folder b fs bucket_name pfx local_path) :=
  ⟨fun _ _ _ _ => rfl, fun _ _ _ _ _ => rfl, fun _ _ _ => rfl,
   fun _ _ _ _ _ => rfl, fun _ _ _ _ _ => rfl, fun _ _ _ _ _ => rfl,
   fun _ _ _ _ _ => rfl, fun _ _ _ _ _ => rfl⟩

/-- Claim C10: in `download_object`, directory creation and file writing
happen only after a successful backend get: on a failing get, the error
propagates, the trace holds the single get call, and the local filesystem
(files and directories) is returned unchanged. -/
theorem c10_no_local_change_on_get_error (b : Backend) (fs : FS)
    (bucket_name object_key : String) (local_path : PyPath) (e : Err)
    (hk : strStartsWith object_key "/" = false)
    (hget : b.get bucket_name object_key = .error e) :
    download_object b fs bucket_name object_key local_path =
      (.error e, [.get bucket_name object_key], fs) := by
  simp [download_object, hk, hget]

/-- Witness for C10: a failing get on a stub leaves the filesystem as it
was. -/
theorem c10_witness :
    download_object stubGetFails fs0 "bkt" "k" ⟨true, ["dest", "f.txt"]⟩ =
      (.error (.storage "get failed"), [.get "bkt" "k"], fs0) :=
  c10_no_local_change_on_get_error stubGetFails fs0 "bkt" "k"
    ⟨true, ["dest", "f.txt"]⟩ (.storage "get failed") (by decide) rfl

/-- Claim C7 (failing input): downloading to a bare filename.  The backend
get succeeds, yet `download_object` fails with the OSError raised by
`os.makedirs(os.path.dirname(local_path))` = `os.makedirs("")`, and no file
is written: the claim that parent directories are created "as needed"
(none being needed here) and the body then written does not hold on the
code. -/
theorem c7_bare_filename_download_fails :
    stubOk.get "bkt" "k" = .ok [[104, 105]] ∧
    (download_object stubOk fs0 "bkt" "k" ⟨false, ["file.txt"]⟩).1 =
      .error (.osError "No such file or directory") ∧
    (download_object stubOk fs0 "bkt" "k" ⟨false, ["file.txt"]⟩).2.2 = fs0 := by
  exact ⟨rfl, by decide, by decide⟩

/-- A backend stub listing exactly one key. -/
def stubOneKey : Backend :=
  ⟨fun _ _ => .ok [["data/sub/b.txt"]], fun _ _ _ _ => .ok (), fun _ _ => .ok (),
   fun _ _ => .ok [[104]], fun _ _ _ => .ok ()⟩

/-- A local tree with two regular files under the directory `/root`. -/
def fsTree : FS :=
  ⟨[(⟨true, ["root", "a.txt"]⟩, [1]), (⟨true, ["root", "sub", "b.txt"]⟩, [2])], []⟩

/-- The filesystem state `download_object` leaves behind on success:
directories of the destination's dirname created, body written at the
destination. -/
def dlState (fs : FS) (dest : PyPath) (content : List Nat) : FS :=
  writeFile (osMakedirs fs (pyDirname dest)).2 dest content

/-- Removing a path leaves reads of other paths unchanged. -/
theorem fsRead_removeFile (p p2 : PyPath) (h : p2 ≠ p) :
    ∀ l : List (PyPath × List Nat), fsRead (removeFile l p) p2 = fsRead l p2 := by
  intro l
  induction l with
  | nil => rfl
  | cons x rest ih =>
    obtain ⟨q, d⟩ := x
    by_cases hq : q = p
    · subst hq
      have h2 : ¬q = p2 := fun hc => h (hc ▸ rfl)
      simp [removeFile, fsRead, h2, ih]
    · simp [removeFile, fsRead, hq, ih]

/-- Reading after an overwrite: the written path holds the new content, any
other path reads as before. -/
theorem fsRead_writeFile (fs : FS) (p : PyPath) (d : List Nat) (p2 : PyPath) :
    fsRead (writeFile fs p d).files p2 =
      if p = p2 then some d else fsRead fs.files p2 := by
  by_cases h : p = p2
  · simp [writeFile, fsRead, h]
  · have h2 : p2 ≠ p := fun hc => h hc.symm
    simp [writeFile, fsRead, h, fsRead_removeFile p p2 h2]

/-- `makedirsAux` never touches the files. -/
theorem makedirsAux_files (isAbs : Bool) :
    ∀ (todo done : List String) (fs : FS),
      (makedirsAux isAbs fs done todo).2.files = fs.files := by
  intro todo
  induction todo with
  | nil =>
    intro done fs
    rfl
  | cons s todo ih =>
    intro done fs
    by_cases h : (fsRead fs.files ⟨isAbs, done ++ [s]⟩).isSome = true
    · simp [makedirsAux, h]
    · simp only [makedirsAux]
      rw [if_neg h]
      exact ih (done ++ [s]) _

/-- `osMakedirs` never touches the files (also on failure). -/
theorem osMakedirs_files (fs : FS) (d : PyPath) :
    (osMakedirs fs d).2.files = fs.files := by
  by_cases h : (!d.isAbs && d.segs.isEmpty) = true
  · simp [osMakedirs, h]
  · simp only [osMakedirs]
    rw [if_neg h]
    exact makedirsAux_files d.isAbs d.segs [] fs

/-- Reading from the state a successful download leaves behind. -/
theorem fsRead_dlState (fs : FS) (dest : PyPath) (c : List Nat) (p : PyPath) :
    fsRead (dlState fs dest c).files p =
      if dest = p then some c else fsRead fs.files p := by
  rw [dlState, fsRead_writeFile, osMakedirs_files]

/-- Membership in the ancestor chain of a path. -/
theorem mem_ancestors (d q : PyPath) :
    q ∈ ancestors d ↔
      ∃ i, i < d.segs.length ∧ q = ⟨d.isAbs, d.segs.take (i + 1)⟩ := by
  constructor
  · intro h
    rw [ancestors, List.mem_map] at h
    obtain ⟨i, hi, he⟩ := h
    exact ⟨i, List.mem_range.mp hi, he.symm⟩
  · intro h
    obtain ⟨i, hi, he⟩ := h
    rw [ancestors, List.mem_map]
    exact ⟨i, List.mem_range.mpr hi, he.symm⟩

/-- A member of the dirname ancestor chain is a strict component-prefix of
the destination. -/
theorem mem_ancestors_dirname (dest q : PyPath)
    (h : q ∈ ancestors (pyDirname dest)) :
    q.segs.isPrefixOf dest.segs = true ∧ q.segs.length < dest.segs.length := by
  rw [mem_ancestors] at h
  obtain ⟨i, hi, he⟩ := h
  subst he
  constructor
  · have h1 : (pyDirname dest).segs.take (i + 1) <+: dest.segs := by
      refine (List.take_prefix (i + 1) (pyDirname dest).segs).trans ?_
      simp only [pyDirname]
      exact List.dropLast_prefix dest.segs
    exact List.isPrefixOf_iff_prefix.mpr h1
  · have h2 : (pyDirname dest).segs.length = dest.segs.length - 1 := by
      simp [pyDirname]
    rw [List.length_take, h2]
    rw [h2] at hi
    have h3 := Nat.min_le_right (i + 1) (dest.segs.length - 1)
    omega

/-- A list is a component-prefix of itself (Bool form). -/
theorem isPrefixOf_self {α : Type} [BEq α] [LawfulBEq α] (l : List α) :
    l.isPrefixOf l = true :=
  List.isPrefixOf_iff_prefix.mpr (List.prefix_refl l)

/-- When no regular file blocks the chain, `makedirsAux` succeeds, and every
directory of the result was already present or lies on the walked chain. -/
theorem makedirsAux_ok (isAbs : Bool) :
    ∀ (todo done : List String) (fs : FS),
      (∀ j, j < todo.length →
        fsRead fs.files ⟨isAbs, done ++ todo.take (j + 1)⟩ = none) →
      (makedirsAux isAbs fs done todo).1 = .ok () ∧
      (∀ q, q ∈ (makedirsAux isAbs fs done todo).2.dirs →
        q ∈ fs.dirs ∨ ∃ j, j < todo.length ∧
          q = ⟨isAbs, done ++ todo.take (j + 1)⟩) := by
  intro todo
  induction todo with
  | nil =>
    intro done fs _
    exact ⟨rfl, fun q hq => Or.inl hq⟩
  | cons s todo ih =>
    intro done fs h
    have h0 : fsRead fs.files ⟨isAbs, done ++ [s]⟩ = none := by
      have h1 := h 0 (by simp)
      simpa using h1
    have hnot : ¬((fsRead fs.files ⟨isAbs, done ++ [s]⟩).isSome = true) := by
      simp [h0]
    have hstep : makedirsAux isAbs fs done (s :: todo) =
        makedirsAux isAbs
          ⟨fs.files,
            if (⟨isAbs, done ++ [s]⟩ : PyPath) ∈ fs.dirs then fs.dirs
            else (⟨isAbs, done ++ [s]⟩ : PyPath) :: fs.dirs⟩
          (done ++ [s]) todo := by
      simp only [makedirsAux]
      rw [if_neg hnot]
    obtain ⟨m1, m2⟩ := ih (done ++ [s])
      ⟨fs.files,
        if (⟨isAbs, done ++ [s]⟩ : PyPath) ∈ fs.dirs then fs.dirs
        else (⟨isAbs, done ++ [s]⟩ : PyPath) :: fs.dirs⟩
      (fun j hj => by
        have h2 := h (j + 1) (by simp only [List.length_cons]; omega)
        rw [List.take_succ_cons] at h2
        rw [List.append_assoc]
        simpa using h2)
    rw [hstep]
    refine ⟨m1, ?_⟩
    intro q hq
    rcases m2 q hq with hq2 | ⟨j, hj, he⟩
    · by_cases hp : (⟨isAbs, done ++ [s]⟩ : PyPath) ∈ fs.dirs
      · rw [if_pos hp] at hq2
        exact Or.inl hq2
      · rw [if_neg hp] at hq2
        rcases List.mem_cons.mp hq2 with he | hm
        · exact Or.inr ⟨0, by simp, he⟩
        · exact Or.inl hm
    · refine Or.inr ⟨j + 1, by simp only [List.length_cons]; omega, ?_⟩
      rw [he, List.take_succ_cons]
      simp [List.append_assoc]

/-- When no regular file blocks the ancestor chain of an absolute `d`,
`os.makedirs(d, exist_ok=True)` succeeds and can only have created
directories on that chain. -/
theorem osMakedirs_ok (fs : FS) (d : PyPath) (habs : d.isAbs = true)
    (hfree : ∀ p ∈ ancestors d, fsRead fs.files p = none) :
    (osMakedirs fs d).1 = .ok () ∧
    (∀ q, q ∈ (osMakedirs fs d).2.dirs → q ∈ fs.dirs ∨ q ∈ ancestors d) := by
  have hstep : osMakedirs fs d = makedirsAux d.isAbs fs [] d.segs := by
    simp [osMakedirs, habs]
  have hfree2 : ∀ j, j < d.segs.length →
      fsRead fs.files ⟨d.isAbs, [] ++ d.segs.take (j + 1)⟩ = none := by
    intro j hj
    have h1 := hfree ⟨d.isAbs, d.segs.take (j + 1)⟩
      ((mem_ancestors d _).mpr ⟨j, hj, rfl⟩)
    simpa using h1
  obtain ⟨m1, m2⟩ := makedirsAux_ok d.isAbs d.segs [] fs hfree2
  rw [hstep]
  refine ⟨m1, ?_⟩
  intro q hq
  rcases m2 q hq with h | ⟨j, hj, he⟩
  · exact Or.inl h
  · exact Or.inr ((mem_ancestors d q).mpr ⟨j, hj, by simpa using he⟩)

/-- `Path.relative_to` succeeds when the base components lead the path
components (and absoluteness agrees). -/
theorem relative_to_eq_some (p q : PyPath)
    (h : ((p.isAbs == q.isAbs) && q.segs.isPrefixOf p.segs) = true) :
    p.relative_to q = some ⟨false, p.segs.drop q.segs.length⟩ := by
  simp [PyPath.relative_to, h]

/-- `Path.relative_to` fails (Python `ValueError`) when the component
condition does not hold. -/
theorem relative_to_eq_none (p q : PyPath)
    (h : ((p.isAbs == q.isAbs) && q.segs.isPrefixOf p.segs) = false) :
    p.relative_to q = none := by
  simp [PyPath.relative_to, h]

/-- A successful `download_object` run: one get call, dirname directories
created, chunks written at the destination.  Requires the destination to be
collision-free: no regular file on the dirname ancestor chain (else
`os.makedirs` raises) and no directory at the destination itself (else
`open(..., "wb")` raises). -/
theorem download_object_ok (b : Backend) (fs : FS)
    (bucket_name object_key : String) (local_path : PyPath)
    (chunks : List (List Nat))
    (hks : strStartsWith object_key "/" = false)
    (hget : b.get bucket_name object_key = .ok chunks)
    (habs : local_path.isAbs = true)
    (hfree : ∀ p ∈ ancestors (pyDirname local_path), fsRead fs.files p = none)
    (hdir : local_path ∉ fs.dirs) :
    download_object b fs bucket_name object_key local_path =
      (.ok (), [.get bucket_name object_key],
        dlState fs local_path chunks.flatten) := by
  have habs2 : (pyDirname local_path).isAbs = true := habs
  obtain ⟨m1, m2⟩ := osMakedirs_ok fs (pyDirname local_path) habs2 hfree
  have hnotdir : local_path ∉ (osMakedirs fs (pyDirname local_path)).2.dirs := by
    intro hm
    rcases m2 local_path hm with h | h
    · exact hdir h
    · exact Nat.lt_irrefl _ ((mem_ancestors_dirname local_path local_path h).2)
  rcases hE : osMakedirs fs (pyDirname local_path) with ⟨r, fs1⟩
  have hr : r = Except.ok () := by
    rw [hE] at m1
    exact m1
  subst hr
  have hnd1 : local_path ∉ fs1.dirs := by
    rw [hE] at hnotdir
    exact hnotdir
  have hopen : openWrite fs1 local_path chunks.flatten =
      .ok (dlState fs local_path chunks.flatten) := by
    rw [openWrite, if_neg hnd1, dlState]
    rw [hE]
  simp [download_object, hks, hget, hE, hopen]

/-- The download loop of `download_folder`, on keys that are non-markers,
extend the prefix component-wise, and whose destinations are pairwise
non-nested and collide with no pre-existing file or directory, downloads
every key (in order) to `local_path / (key relative to prefix)` and touches
no other path. -/
theorem dfLoop_spec (b : Backend) (bucket_name pfx : String)
    (local_path : PyPath) (chunks : String → List (List Nat))
    (hget : ∀ k, b.get bucket_name k = .ok (chunks k))
    (hlp : local_path.isAbs = true) :
    ∀ (ks : List String) (fs : FS),
      (∀ k ∈ ks, strStartsWith k "/" = false ∧ strEndsWith k "/" = false ∧
        (((pyPath k).isAbs == (pyPath pfx).isAbs) &&
          (pyPath pfx).segs.isPrefixOf (pyPath k).segs) = true) →
      (∀ k ∈ ks, ∀ p ∈ ancestors (pyDirname (destOf pfx local_path k)),
        fsRead fs.files p = none) →
      (∀ k ∈ ks, destOf pfx local_path k ∉ fs.dirs) →
      ks.Pairwise (destsDisjoint pfx local_path) →
      (dfLoop b bucket_name pfx local_path fs ks).1 = .ok () ∧
      (dfLoop b bucket_name pfx local_path fs ks).2.1 =
        ks.map (fun k => BackendCall.get bucket_name k) ∧
      (∀ p, p ∉ ks.map (destOf pfx local_path) →
        fsRead (dfLoop b bucket_name pfx local_path fs ks).2.2.files p =
          fsRead fs.files p) ∧
      (∀ k ∈ ks,
        fsRead (dfLoop b bucket_name pfx local_path fs ks).2.2.files
          (destOf pfx local_path k) = some (chunks k).flatten) := by
  intro ks
  induction ks with
  | nil =>
    intro fs _ _ _ _
    exact ⟨rfl, rfl, fun p _ => rfl, fun k hk => absurd hk (by simp)⟩
  | cons k rest ih =>
    intro fs hk hB1 hB2 hA
    obtain ⟨hks, hkm, hcond⟩ := hk k (List.mem_cons_self k rest)
    have htail : ∀ k2 ∈ rest, strStartsWith k2 "/" = false ∧
        strEndsWith k2 "/" = false ∧
        (((pyPath k2).isAbs == (pyPath pfx).isAbs) &&
          (pyPath pfx).segs.isPrefixOf (pyPath k2).segs) = true :=
      fun k2 h2 => hk k2 (List.mem_cons_of_mem k h2)
    rw [List.pairwise_cons] at hA
    obtain ⟨hhead, htailA⟩ := hA
    have hrel := relative_to_eq_some (pyPath k) (pyPath pfx) hcond
    have hdo := download_object_ok b fs bucket_name k
      (pyJoin local_path ⟨false, (pyPath k).segs.drop (pyPath pfx).segs.length⟩)
      (chunks k) hks (hget k) (by simp [pyJoin, hlp])
      (hB1 k (List.mem_cons_self k rest))
      (hB2 k (List.mem_cons_self k rest))
    have hstep : dfLoop b bucket_name pfx local_path fs (k :: rest) =
        ((dfLoop b bucket_name pfx local_path
            (dlState fs (destOf pfx local_path k) (chunks k).flatten) rest).1,
          BackendCall.get bucket_name k ::
            (dfLoop b bucket_name pfx local_path
              (dlState fs (destOf pfx local_path k) (chunks k).flatten) rest).2.1,
          (dfLoop b bucket_name pfx local_path
            (dlState fs (destOf pfx local_path k) (chunks k).flatten) rest).2.2) := by
      simp only [dfLoop]
      simp [hkm, hrel, hdo, destOf]
    have hdk_ne : ∀ k2 ∈ rest,
        destOf pfx local_path k ≠ destOf pfx local_path k2 := by
      intro k2 h2 he
      have hfalse := (hhead k2 h2).1
      rw [he, isPrefixOf_self] at hfalse
      cases hfalse
    have hB1t : ∀ k2 ∈ rest,
        ∀ p ∈ ancestors (pyDirname (destOf pfx local_path k2)),
        fsRead (dlState fs (destOf pfx local_path k)
          (chunks k).flatten).files p = none := by
      intro k2 h2 p hp
      rw [fsRead_dlState]
      have hne : destOf pfx local_path k ≠ p := by
        intro he
        have hpre := (mem_ancestors_dirname (destOf pfx local_path k2) p hp).1
        rw [← he] at hpre
        have hfalse := (hhead k2 h2).1
        rw [hfalse] at hpre
        cases hpre
      rw [if_neg hne]
      exact hB1 k2 (List.mem_cons_of_mem k h2) p hp
    have hB2t : ∀ k2 ∈ rest, destOf pfx local_path k2 ∉
        (dlState fs (destOf pfx local_path k) (chunks k).flatten).dirs := by
      intro k2 h2 hm
      have hm2 : destOf pfx local_path k2 ∈
          (osMakedirs fs (pyDirname (destOf pfx local_path k))).2.dirs := hm
      obtain ⟨-, msub⟩ := osMakedirs_ok fs
        (pyDirname (destOf pfx local_path k))
        (by simp [pyDirname, destOf, pyJoin, hlp])
        (hB1 k (List.mem_cons_self k rest))
      rcases msub _ hm2 with h | h
      · exact hB2 k2 (List.mem_cons_of_mem k h2) h
      · have hpre := (mem_ancestors_dirname (destOf pfx local_path k) _ h).1
        have hfalse := (hhead k2 h2).2
        rw [hfalse] at hpre
        cases hpre
    obtain ⟨ih1, ih2, ih3, ih4⟩ :=
      ih (dlState fs (destOf pfx local_path k) (chunks k).flatten)
        htail hB1t hB2t htailA
    refine ⟨?_, ?_, ?_, ?_⟩
    · rw [hstep]
      exact ih1
    · rw [hstep]
      simp [ih2]
    · intro p hp
      rw [hstep]
      have hp1 : destOf pfx local_path k ≠ p := by
        intro hc
        exact hp (by simp [hc])
      have hp2 : p ∉ rest.map (destOf pfx local_path) := by
        intro hc
        exact hp (by simp [hc])
      rw [ih3 p hp2, fsRead_dlState]
      simp [hp1]
    · intro k2 hk2
      rw [hstep]
      rcases List.mem_cons.mp hk2 with h | h
      · subst h
        have hnot : destOf pfx local_path k2 ∉
            rest.map (destOf pfx local_path) := by
          intro hm
          rw [List.mem_map] at hm
          obtain ⟨k3, h3, he3⟩ := hm
          exact hdk_ne k3 h3 he3.symm
        rw [ih3 (destOf pfx local_path k2) hnot, fsRead_dlState]
        simp
      · exact ih4 k2 h

/-- A backend stub listing two keys whose destinations nest. -/
def stubNested : Backend :=
  ⟨fun _ _ => .ok [["data/a", "data/a/b"]], fun _ _ _ _ => .ok (),
   fun _ _ => .ok (), fun _ _ => .ok [[104]], fun _ _ _ => .ok ()⟩

/-- Claim C4 (counterexample to the claim as stated): with remote keys
data/a and data/a/b — an ordinary flat S3 keyspace — the first iteration
writes the regular file dest/a, and the second then runs
`os.makedirs("dest/a", exist_ok=True)`, which raises `FileExistsError`
because a regular file occupies dest/a.  `download_folder` therefore errors
out instead of downloading each remaining key, and dest/a/b is never
written. -/
theorem c4_counterexample :
    (download_folder stubNested fs0 "bkt" "data/" ⟨true, ["dest"]⟩).1 =
      .error (.osError "File exists") ∧
    fsRead (download_folder stubNested fs0 "bkt" "data/"
        ⟨true, ["dest"]⟩).2.2.files ⟨true, ["dest", "a", "b"]⟩ = none := by
  exact ⟨by decide, by decide⟩

/-- Claim C4 (amended): for a prefix not starting with "/" and an (absolute)
destination directory, provided the listed keys' destinations are pairwise
non-nested and collide with no pre-existing file on an ancestor directory
nor any pre-existing directory at a destination, `download_folder` lists all
keys under the prefix, skips folder markers (keys ending in "/"), and
downloads each remaining key to `local_path / (key relative to prefix)` —
those destinations hold the downloaded bodies and no other local path is
touched.  (Without the proviso the operation halts on the
FileExistsError/NotADirectoryError/IsADirectoryError of the colliding
step.) -/
theorem c4_download_folder_downloads_each_key (b : Backend) (fs : FS)
    (bucket_name pfx : String) (local_path : PyPath)
    (pages : List (List String)) (chunks : String → List (List Nat))
    (hpfx : strStartsWith pfx "/" = false)
    (hlist : b.listPages bucket_name pfx = .ok pages)
    (hget : ∀ k, b.get bucket_name k = .ok (chunks k))
    (hlp : local_path.isAbs = true)
    (hk : ∀ k ∈ pages.flatten, strStartsWith k "/" = false ∧
      (((pyPath k).isAbs == (pyPath pfx).isAbs) &&
        (pyPath pfx).segs.isPrefixOf (pyPath k).segs) = true)
    (hB1 : ∀ k ∈ pages.flatten.filter (fun k => !strEndsWith k "/"),
      ∀ p ∈ ancestors (pyDirname (destOf pfx local_path k)),
        fsRead fs.files p = none)
    (hB2 : ∀ k ∈ pages.flatten.filter (fun k => !strEndsWith k "/"),
      destOf pfx local_path k ∉ fs.dirs)
    (hA : (pages.flatten.filter (fun k => !strEndsWith k "/")).Pairwise
      (destsDisjoint pfx local_path)) :
    (download_folder b fs bucket_name pfx local_path).1 = .ok () ∧
    (download_folder b fs bucket_name pfx local_path).2.1 =
      BackendCall.listPages bucket_name pfx ::
        (pages.flatten.filter (fun k => !strEndsWith k "/")).map
          (fun k => BackendCall.get bucket_name k) ∧
    (∀ k ∈ pages.flatten.filter (fun k => !strEndsWith k "/"),
      fsRead (download_folder b fs bucket_name pfx local_path).2.2.files
        (destOf pfx local_path k) = some (chunks k).flatten) ∧
    (∀ p, p ∉ (pages.flatten.filter (fun k => !strEndsWith k "/")).map
        (destOf pfx local_path) →
      fsRead (download_folder b fs bucket_name pfx local_path).2.2.files p =
        fsRead fs.files p) := by
  have hkeys : ∀ k ∈ pages.flatten.filter (fun k => !strEndsWith k "/"),
      strStartsWith k "/" = false ∧ strEndsWith k "/" = false ∧
      (((pyPath k).isAbs == (pyPath pfx).isAbs) &&
        (pyPath pfx).segs.isPrefixOf (pyPath k).segs) = true := by
    intro k hm
    rw [List.mem_filter] at hm
    obtain ⟨h1, h2⟩ := hk k hm.1
    exact ⟨h1, by simpa using hm.2, h2⟩
  obtain ⟨d1, d2, d3, d4⟩ :=
    dfLoop_spec b bucket_name pfx local_path chunks hget hlp
      (pages.flatten.filter (fun k => !strEndsWith k "/")) fs hkeys hB1 hB2 hA
  have hstep : download_folder b fs bucket_name pfx local_path =
      ((dfLoop b bucket_name pfx local_path fs
          (pages.flatten.filter (fun k => !strEndsWith k "/"))).1,
        BackendCall.listPages bucket_name pfx ::
          (dfLoop b bucket_name pfx local_path fs
            (pages.flatten.filter (fun k => !strEndsWith k "/"))).2.1,
        (dfLoop b bucket_name pfx local_path fs
          (pages.flatten.filter (fun k => !strEndsWith k "/"))).2.2) := by
    simp [download_folder, list_object_keys, hpfx, hlist, foldl_append_eq_flatten]
  refine ⟨?_, ?_, ?_, ?_⟩
  · rw [hstep]
    exact d1
  · rw [hstep]
    rw [d2]
  · intro k hkm
    rw [hstep]
    exact d4 k hkm
  · intro p hp
    rw [hstep]
    exact d3 p hp

/-- Witness for the amended C4: the spec's example — prefix "data/", remote
keys data/a.txt, data/sub/b.txt and the marker data/, collision-free — yields
local files at dest/a.txt and dest/sub/b.txt only. -/
theorem c4_witness :
    (download_folder stubOk fs0 "bkt" "data/" ⟨true, ["dest"]⟩).1 = .ok () ∧
    fsRead (download_folder stubOk fs0 "bkt" "data/" ⟨true, ["dest"]⟩).2.2.files
      ⟨true, ["dest", "a.txt"]⟩ = some [104, 105] ∧
    fsRead (download_folder stubOk fs0 "bkt" "data/" ⟨true, ["dest"]⟩).2.2.files
      ⟨true, ["dest", "sub", "b.txt"]⟩ = some [104, 105] ∧
    fsRead (download_folder stubOk fs0 "bkt" "data/" ⟨true, ["dest"]⟩).2.2.files
      ⟨true, ["dest"]⟩ = none := by
  obtain ⟨h1, h2, h3, h4⟩ :=
    c4_download_folder_downloads_each_key stubOk fs0 "bkt" "data/"
      ⟨true, ["dest"]⟩ [["data/a.txt", "data/sub/b.txt", "data/"]]
      (fun _ => [[104, 105]]) (by decide) rfl (fun _ => rfl) rfl (by decide)
      (by decide) (by decide) (by decide)
  exact ⟨h1, h3 "data/a.txt" (by decide),
    h3 "data/sub/b.txt" (by decide),
    (h4 ⟨true, ["dest"]⟩ (by decide)).trans rfl⟩

/-- A path listed among the files has readable content. -/
theorem fsRead_isSome_of_mem :
    ∀ (l : List (PyPath × List Nat)) (p : PyPath), p ∈ l.map Prod.fst →
      ∃ d, fsRead l p = some d := by
  intro l
  induction l with
  | nil =>
    intro p hp
    simp at hp
  | cons x rest ih =>
    intro p hp
    obtain ⟨q, d⟩ := x
    by_cases hq : q = p
    · exact ⟨d, by simp [fsRead, hq]⟩
    · have hp2 : p ∈ rest.map Prod.fst := by
        rw [List.map_cons] at hp
        rcases List.mem_cons.mp hp with h | h
        · exact absurd h.symm hq
        · exact h
      obtain ⟨d2, hd2⟩ := ih p hp2
      exact ⟨d2, by simp [fsRead, hq, hd2]⟩

/-- The upload loop of `put_folder`: for files under the folder root whose
computed keys are valid, every file is uploaded (in order) to
`str(Path(prefix) / (file relative to local_path))` with its stored
content. -/
theorem pfLoop_spec (b : Backend) (fs : FS) (bucket_name pfx : String)
    (local_path : PyPath)
    (hput : ∀ bk k d, b.put bk k d = .ok ()) :
    ∀ ps : List PyPath,
      (∀ p ∈ ps,
        (((p.isAbs == local_path.isAbs) &&
          local_path.segs.isPrefixOf p.segs) = true) ∧
        (∃ d, fsRead fs.files p = some d) ∧
        strStartsWith (s3KeyOf pfx local_path p) "/" = false) →
      (pfLoop b fs bucket_name pfx local_path ps).1 = .ok () ∧
      (pfLoop b fs bucket_name pfx local_path ps).2 =
        ps.map (fun p => BackendCall.put bucket_name (s3KeyOf pfx local_path p)
          ((fsRead fs.files p).getD [])) := by
  intro ps
  induction ps with
  | nil =>
    intro _
    exact ⟨rfl, rfl⟩
  | cons p rest ih =>
    intro h
    obtain ⟨hcond, ⟨d, hread⟩, hkey⟩ := h p (List.mem_cons_self p rest)
    have htail := fun q hq => h q (List.mem_cons_of_mem p hq)
    obtain ⟨ih1, ih2⟩ := ih htail
    have hrel := relative_to_eq_some p local_path hcond
    have hkey2 : strStartsWith
        (pyStr (pyJoin (pyPath pfx)
          ⟨false, p.segs.drop local_path.segs.length⟩)) "/" = false := hkey
    have hstep : pfLoop b fs bucket_name pfx local_path (p :: rest) =
        ((pfLoop b fs bucket_name pfx local_path rest).1,
          BackendCall.put bucket_name (s3KeyOf pfx local_path p) d ::
            (pfLoop b fs bucket_name pfx local_path rest).2) := by
      simp only [pfLoop]
      simp [hrel, put_object, hkey2, hread, hput, s3KeyOf]
    rw [hstep]
    refine ⟨ih1, ?_⟩
    rw [ih2, List.map_cons, hread]
    rfl

/-- Claim C5: `put_folder` uploads exactly the regular files under
`local_path` (directories and other entries are never enumerated as files),
each to the key obtained by joining the prefix with the file's path relative
to `local_path`, with its stored content; the recorded trace is exactly one
put per such file, in enumeration order. -/
theorem c5_put_folder_uploads_relative_keys (b : Backend) (fs : FS)
    (bucket_name pfx : String) (local_path : PyPath)
    (hpfx : strStartsWith pfx "/" = false)
    (hput : ∀ bk k d, b.put bk k d = .ok ())
    (hkeys : ∀ p ∈ rglobFiles fs local_path,
      strStartsWith (s3KeyOf pfx local_path p) "/" = false) :
    (put_folder b fs bucket_name pfx local_path).1 = .ok () ∧
    (put_folder b fs bucket_name pfx local_path).2 =
      (rglobFiles fs local_path).map
        (fun p => BackendCall.put bucket_name (s3KeyOf pfx local_path p)
          ((fsRead fs.files p).getD [])) := by
  have hyp : ∀ p ∈ rglobFiles fs local_path,
      (((p.isAbs == local_path.isAbs) &&
        local_path.segs.isPrefixOf p.segs) = true) ∧
      (∃ d, fsRead fs.files p = some d) ∧
      strStartsWith (s3KeyOf pfx local_path p) "/" = false := by
    intro p hp
    have hm := hp
    rw [rglobFiles, List.mem_filter] at hm
    obtain ⟨hmem, hcondall⟩ := hm
    rw [Bool.and_eq_true] at hcondall
    exact ⟨hcondall.1, fsRead_isSome_of_mem fs.files p hmem, hkeys p hp⟩
  have hstep : put_folder b fs bucket_name pfx local_path =
      pfLoop b fs bucket_name pfx local_path (rglobFiles fs local_path) := by
    simp [put_folder, hpfx]
  rw [hstep]
  exact pfLoop_spec b fs bucket_name pfx local_path hput
    (rglobFiles fs local_path) hyp

/-- Witness for C5: the spec's example — local tree root/a.txt, root/sub/b.txt
with prefix "up" produces uploads to keys up/a.txt and up/sub/b.txt exactly. -/
theorem c5_witness :
    (put_folder stubOk fsTree "bkt" "up" ⟨true, ["root"]⟩).1 = .ok () ∧
    (put_folder stubOk fsTree "bkt" "up" ⟨true, ["root"]⟩).2 =
      [.put "bkt" "up/a.txt" [1], .put "bkt" "up/sub/b.txt" [2]] := by
  obtain ⟨h1, h2⟩ := c5_put_folder_uploads_relative_keys stubOk fsTree "bkt" "up"
    ⟨true, ["root"]⟩ (by decide) (fun _ _ _ => rfl) (by decide)
  exact ⟨h1, h2.trans (by decide)⟩

/-- Claim C6 (counterexample to the claim as stated): the listed key
"datax/a.txt" does begin with the prefix "data" as a string, yet
`download_folder` fails with the path-computation `ValueError` from
`Path.relative_to`, because "data" is not a component-wise lead of the
key's path. -/
theorem c6_counterexample :
    strStartsWith "datax/a.txt" "data" = true ∧
    (download_folder stubBadKey fs0 "bkt" "data" ⟨true, ["dest"]⟩).1 =
      .error (.valueError "datax/a.txt is not in the subpath of data") := by
  exact ⟨by decide, by decide⟩

/-- Claim C6 (amended): for a listed non-marker key, the relative-path
computation of `download_folder` fails with the `ValueError` exactly when
the prefix's path components are not a leading run of the key's path
components (Python `Path.relative_to` semantics — a key may string-begin
with the prefix and still fail); when the components do lead, the relative
path is computed and the download completes. -/
theorem c6_relative_path_component_criterion (b : Backend) (fs : FS)
    (bucket_name pfx k : String) (local_path : PyPath)
    (chunks : String → List (List Nat))
    (hpfx : strStartsWith pfx "/" = false)
    (hka : strStartsWith k "/" = false)
    (hkm : strEndsWith k "/" = false)
    (hlist : b.listPages bucket_name pfx = .ok [[k]])
    (hget : ∀ k2, b.get bucket_name k2 = .ok (chunks k2))
    (hlp : local_path.isAbs = true)
    (hfree : ∀ p ∈ ancestors (pyDirname (destOf pfx local_path k)),
      fsRead fs.files p = none)
    (hdir : destOf pfx local_path k ∉ fs.dirs) :
    ((download_folder b fs bucket_name pfx local_path).1 =
        .error (.valueError (k ++ " is not in the subpath of " ++ pfx)) ↔
      (pyPath pfx).segs.isPrefixOf (pyPath k).segs = false) ∧
    ((pyPath pfx).segs.isPrefixOf (pyPath k).segs = true →
      (download_folder b fs bucket_name pfx local_path).1 = .ok ()) := by
  have hisk : (pyPath k).isAbs = false := hka
  have hisp : (pyPath pfx).isAbs = false := hpfx
  cases hpre : (pyPath pfx).segs.isPrefixOf (pyPath k).segs with
  | false =>
    have hcond : (((pyPath k).isAbs == (pyPath pfx).isAbs) &&
        (pyPath pfx).segs.isPrefixOf (pyPath k).segs) = false := by
      rw [hisk, hisp, hpre]
      rfl
    have hrel := relative_to_eq_none (pyPath k) (pyPath pfx) hcond
    have hstep : (download_folder b fs bucket_name pfx local_path).1 =
        .error (.valueError (k ++ " is not in the subpath of " ++ pfx)) := by
      simp [download_folder, list_object_keys, hpfx, hlist, dfLoop, hkm, hrel]
    refine ⟨by simp [hstep], ?_⟩
    intro hc
    cases hc
  | true =>
    have hcond : (((pyPath k).isAbs == (pyPath pfx).isAbs) &&
        (pyPath pfx).segs.isPrefixOf (pyPath k).segs) = true := by
      rw [hisk, hisp, hpre]
      rfl
    have hrel := relative_to_eq_some (pyPath k) (pyPath pfx) hcond
    have hdo := download_object_ok b fs bucket_name k
      (pyJoin local_path ⟨false, (pyPath k).segs.drop (pyPath pfx).segs.length⟩)
      (chunks k) hka (hget k) (by simp [pyJoin, hlp]) hfree hdir
    have hstep : (download_folder b fs bucket_name pfx local_path).1 = .ok () := by
      simp [download_folder, list_object_keys, hpfx, hlist, dfLoop, hkm, hrel, hdo]
    refine ⟨?_, fun _ => hstep⟩
    rw [hstep]
    simp

/-- Witness for the amended C6: a key whose components extend the prefix's
components is downloaded without a path-computation error. -/
theorem c6_witness :
    (pyPath "data/").segs.isPrefixOf (pyPath "data/sub/b.txt").segs = true ∧
    (download_folder stubOneKey fs0 "bkt" "data/" ⟨true, ["dest"]⟩).1 = .ok () := by
  obtain ⟨h1, h2⟩ := c6_relative_path_component_criterion stubOneKey fs0 "bkt"
    "data/" "data/sub/b.txt" ⟨true, ["dest"]⟩ (fun _ => [[104]]) (by decide)
    (by decide) (by decide) rfl (fun _ => rfl) rfl (by decide) (by decide)
  exact ⟨by decide, h2 (by decide)⟩
